import Mathlib

/-!
Verification development for the B2SC training core (`train_GMVAE.py`).

The Python file defines two functions: `zinb_loss`, a zero-inflated
negative-binomial loss on tensors, and `train_GMVAE`, the per-epoch driver
(entry assertions on `base_dir`, a batch loop with a reconstruction-shape
assertion, a composite loss with a hard-clamped KL term, and two
checkpoint branches).

Tensors are modelled over exact reals: a matrix is a list of rows, each a
`List ℝ`; reductions (`mean`, `sum`) are taken over the flattened element
list, matching torch's default reductions.  `torch.lgamma` is modelled as
`Real.log ∘ Real.Gamma` and `torch.pow` on real exponents as `Real.rpow`.
The external model, its two dispersion parameter vectors and the optimizer
step are abstracted as a `Model σ` record over an opaque parameter-state
type `σ`; the train/eval mode toggle is threaded explicitly and every
model invocation records the mode in force, so mode invariants can be
stated about the trace.
-/

set_option autoImplicit false

/-- A tensor of rank 2: a list of rows. -/
abbrev Mat : Type := List (List ℝ)

/-- Flatten a matrix into the list of its elements, row-major
(torch reductions over all elements act on this list). -/
def flattenM (m : Mat) : List ℝ :=
  m.foldr (fun r acc => r ++ acc) []

/-- Mean of a list of reals (`torch.mean` over all elements). -/
noncomputable def meanR (l : List ℝ) : ℝ :=
  l.sum / l.length

/-- Elementwise mean-squared error between two equally shaped vectors
(`F.mse_loss` with the default mean reduction). -/
noncomputable def mseR (a b : List ℝ) : ℝ :=
  meanR (List.zipWith (fun x y => (x - y) ^ 2) a b)

/-- Elementwise sum of two rows (used to accumulate column sums). -/
def vadd (a b : List ℝ) : List ℝ :=
  List.zipWith (fun x y => x + y) a b

/-- Column-wise sums of a matrix. -/
def colSum : Mat → List ℝ
  | [] => []
  | [r] => r
  | r :: rs => vadd r (colSum rs)

/-- Column-wise means of a matrix: `tensor.mean(0)`, the mean over the
sample axis. -/
noncomputable def colMean (m : Mat) : List ℝ :=
  (colSum m).map (fun x => x / m.length)

/-- Ternary zipWith over real lists, truncating at the shortest. -/
def zipWith3R (f : ℝ → ℝ → ℝ → ℝ) : List ℝ → List ℝ → List ℝ → List ℝ
  | a :: as, b :: bs, c :: cs => f a b c :: zipWith3R f as bs cs
  | _, _, _ => []

/-- `torch.lgamma`, modelled as the log of the real Gamma function. -/
noncomputable def lgamma (x : ℝ) : ℝ :=
  Real.log (Real.Gamma x)

/-- The negative-binomial part of `zinb_loss`, elementwise
(line 14-15 of `train_GMVAE.py`):
`-lgamma(r+eps) + lgamma(y+r+eps) - lgamma(y+1) + r*log(pi+eps) + y*log(1-(pi+eps))`. -/
noncomputable def nb_case (y p r eps : ℝ) : ℝ :=
  -lgamma (r + eps) + lgamma (y + r + eps) - lgamma (y + 1)
    + r * Real.log (p + eps) + y * Real.log (1 - (p + eps))

/-- The zero-inflated part of `zinb_loss`, elementwise
(lines 18-19): where `y < eps`, it is
`-log(pi^r + (1 - pi^r) * exp(-r * log(1 - pi + eps)))`, elsewhere `0`. -/
noncomputable def zero_case (y p r eps : ℝ) : ℝ :=
  if y < eps then
    -Real.log (p ^ r + (1 - p ^ r) * Real.exp (-r * Real.log (1 - p + eps)))
  else 0

/-- One summand of the mean in `zinb_loss`: the zero-inflated part plus
the (unconditional) negative-binomial part. -/
noncomputable def zinbTerm (y p r eps : ℝ) : ℝ :=
  zero_case y p r eps + nb_case y p r eps

/-- `zinb_loss(y_true, y_pred, pi, r, eps)` on flattened tensors: the
negative mean over all elements of `zero_case + nb_case`.  `y_pred` is
received (and cast) by the Python code but never enters the formula. -/
noncomputable def zinb_loss (y_true : List ℝ) (y_pred : List ℝ)
    (piv rv : List ℝ) (eps : ℝ) : ℝ :=
  -(meanR (zipWith3R (fun y p r => zinbTerm y p r eps) y_true piv rv))

/-- The default value of the `eps` argument of `zinb_loss`. -/
noncomputable def epsDefault : ℝ := 1e-10

/-- Modelled from the spec: the negative-binomial term as the spec words
it — `lgamma(y+r) - lgamma(r) - lgamma(y+1) + r*log(pi) + y*log(1-pi)`,
"each term epsilon-stabilized", read as adding `eps` inside each
function argument.  To be compared with `nb_case`, the term the code
computes. -/
noncomputable def nb_case_fromSpec (y p r eps : ℝ) : ℝ :=
  lgamma (y + r + eps) - lgamma (r + eps) - lgamma (y + 1 + eps)
    + r * Real.log (p + eps) + y * Real.log (1 - p + eps)

/-- Modelled from the spec: the zero-inflated term as the spec words it —
`-log(zero_nb + (1-zero_nb) * exp(-r*log(1-pi)))` with `zero_nb = pi^r`,
with no epsilon inside `log(1-pi)`.  To be compared with `zero_case`,
the term the code computes. -/
noncomputable def zero_case_fromSpec (y p r eps : ℝ) : ℝ :=
  if y < eps then
    -Real.log (p ^ r + (1 - p ^ r) * Real.exp (-r * Real.log (1 - p)))
  else 0

/-- `zinb_loss` as called by the driver (line 62): data and
reconstruction are flattened row-major, and the per-feature vectors
`prob_extra_zero` and `over_disp` are broadcast across the rows;
`eps` is left at its default. -/
noncomputable def zinbMat (data recon : Mat) (piv rv : List ℝ) : ℝ :=
  zinb_loss (flattenM data) (flattenM recon)
    (flattenM (data.map (fun _ => piv))) (flattenM (data.map (fun _ => rv)))
    epsDefault

/-- The raw KL term (line 64):
`0.5 * sum(-1 - logvar + mu^2 + exp(logvar)) / 1e9`. -/
noncomputable def klRaw (mus logvars : Mat) : ℝ :=
  0.5 * (List.zipWith (fun m l => -1 - l + m ^ 2 + Real.exp l)
    (flattenM mus) (flattenM logvars)).sum / 1e9

/-- The weighted KL term after the hard clamp (lines 65-66):
`kl * w`, replaced by exactly `1` when it exceeds `1`. -/
noncomputable def klWeighted (kl w : ℝ) : ℝ :=
  if kl * w > 1 then 1 else kl * w

/-- The fixed-weight combination on line 68:
`loss_recon*5 + zinb + fraction_loss*10 + kl_weighted`. -/
noncomputable def combineLoss (recon zinb fraction klw : ℝ) : ℝ :=
  recon * 5 + zinb + fraction * 10 + klw

/-- Output of one model forward pass:
`reconstructed, mus, logvars, pis, zs = model(data, labels)`. -/
structure ModelOut : Type where
  reconstructed : Mat
  mus : Mat
  logvars : Mat
  pis : Mat
  zs : Mat

/-- The per-batch composite loss (lines 51-68), computed from the batch
features, the model output, the model's dispersion parameters, the
target proportion vector and the KL weight. -/
noncomputable def batchLoss (data : Mat) (out : ModelOut)
    (piv rv prop : List ℝ) (klw : ℝ) : ℝ :=
  let fraction_loss := mseR (colMean out.pis) prop
  let loss_recon := mseR (flattenM out.reconstructed) (flattenM data)
  let zinb_val := zinbMat data out.reconstructed piv rv
  let loss_kl := klRaw out.mus out.logvars
  let loss_kl_weighted := klWeighted loss_kl klw
  combineLoss loss_recon zinb_val fraction_loss loss_kl_weighted

/-- The train/eval mode toggle of the external model. -/
inductive Mode : Type
  | training
  | evaluation
deriving DecidableEq

/-- Errors `train_GMVAE` can raise: the two entry assertions on
`base_dir`, the reconstruction-shape assertion on line 49, and the
`NameError` raised by the post-loop logging (lines 80-84) when the batch
loop never ran and its locals are unbound. -/
inductive TrainError : Type
  | assertionFailed
  | shapeMismatch
  | unboundLocal
deriving DecidableEq

/-- The dynamic kind of the Python value passed as `base_dir`:
`None`, a `str`, a `pathlib.Path`, or anything else. -/
inductive PyValue : Type
  | none
  | str
  | path
  | other
deriving DecidableEq

/-- `base_dir is not None` (line 25). -/
def notNone : PyValue → Bool
  | PyValue.none => false
  | _ => true

/-- `isinstance(base_dir, str)`. -/
def isStr : PyValue → Bool
  | PyValue.str => true
  | _ => false

/-- `isinstance(base_dir, Path)`. -/
def isPath : PyValue → Bool
  | PyValue.path => true
  | _ => false

/-- Both entry assertions of `train_GMVAE` (lines 25-26) pass. -/
def assertsPass (b : PyValue) : Bool :=
  notNone b && (isStr b || isPath b)

/-- The shape of a matrix: number of rows and the length of each row. -/
def shape (m : Mat) : ℕ × List ℕ :=
  (m.length, m.map List.length)

/-- The external model and optimizer, abstracted over a parameter-state
type `σ`: a forward pass, the two read-only dispersion parameter vectors
`prob_extra_zero` and `over_disp`, and the parameter mutation performed
by `optimizer.step()`. -/
structure Model (σ : Type) : Type where
  forward : σ → Mat → List ℤ → ModelOut
  probExtraZero : σ → List ℝ
  overDisp : σ → List ℝ
  optStep : σ → σ

/-- One iteration of the batch loop (lines 35-78): forward pass, the
shape assertion of line 49, then the composite loss and the optimizer
step.  Returns the post-step parameter state and the scalar loss, or the
shape-mismatch error — raised before any loss component is computed. -/
noncomputable def trainStep {σ : Type} (M : Model σ) (s : σ)
    (prop : List ℝ) (klw : ℝ) (data : Mat) (labels : List ℤ) :
    Except TrainError (σ × ℝ) :=
  let out := M.forward s data labels
  if shape out.reconstructed = shape data then
    Except.ok (M.optStep s,
      batchLoss data out (M.probExtraZero s) (M.overDisp s) prop klw)
  else
    Except.error TrainError.shapeMismatch

/-- The batch loop: threads the parameter state and the accumulator
`total_loss`, records the mode in force at each forward pass in a ghost
trace, and aborts on the first failing shape assertion; each iteration
is exactly one `trainStep`. -/
noncomputable def runBatches {σ : Type} (M : Model σ) (prop : List ℝ)
    (klw : ℝ) (mode : Mode) :
    σ → ℝ → List Mode → List (Mat × List ℤ) →
    List Mode × Except TrainError (σ × ℝ)
  | s, total, trace, [] => (trace, Except.ok (s, total))
  | s, total, trace, (data, labels) :: rest =>
    if shape (M.forward s data labels).reconstructed = shape data then
      runBatches M prop klw mode (M.optStep s)
        (total + batchLoss data (M.forward s data labels) (M.probExtraZero s)
          (M.overDisp s) prop klw)
        (trace ++ [mode]) rest
    else (trace ++ [mode], Except.error TrainError.shapeMismatch)

/-- Every batch along the trajectory passes the shape assertion. -/
def wellShaped {σ : Type} (M : Model σ) : σ → List (Mat × List ℤ) → Bool
  | _, [] => true
  | s, (data, labels) :: rest =>
    decide (shape (M.forward s data labels).reconstructed = shape data)
      && wellShaped M (M.optStep s) rest

/-- The scalar composite loss of each batch along the trajectory. -/
noncomputable def perBatchLosses {σ : Type} (M : Model σ) (prop : List ℝ)
    (klw : ℝ) : σ → List (Mat × List ℤ) → List ℝ
  | _, [] => []
  | s, (data, labels) :: rest =>
    batchLoss data (M.forward s data labels) (M.probExtraZero s)
        (M.overDisp s) prop klw
      :: perBatchLosses M prop klw (M.optStep s) rest

/-- The parameter state after one `optimizer.step()` per batch. -/
def finalState {σ : Type} (M : Model σ) : σ → List (Mat × List ℤ) → σ
  | s, [] => s
  | s, _ :: rest => finalState M (M.optStep s) rest

/-- The two checkpoint branches. -/
inductive Branch : Type
  | periodic
  | final
deriving DecidableEq

/-- Guard of the periodic checkpoint branch (line 87):
`(epoch+1) % 10 == 0 and epoch != max_epochs - 1`. -/
def periodicCond (epoch maxEpochs : ℤ) : Bool :=
  decide ((epoch + 1) % 10 = 0) && decide (epoch ≠ maxEpochs - 1)

/-- Guard of the final-save branch (line 154): `epoch == max_epochs - 1`. -/
def finalCond (epoch maxEpochs : ℤ) : Bool :=
  decide (epoch = maxEpochs - 1)

/-- The checkpoint branch the `if`/`elif` of lines 87-154 takes, if any. -/
def checkpointBranch (epoch maxEpochs : ℤ) : Option Branch :=
  if periodicCond epoch maxEpochs then some Branch.periodic
  else if finalCond epoch maxEpochs then some Branch.final
  else Option.none

/-- The result of a successful `train_GMVAE` call: the parameter state,
the mode the model is left in, and the returned `total_loss`. -/
structure EpochResult (σ : Type) : Type where
  state : σ
  mode : Mode
  total : ℝ

/-- The body of `train_GMVAE` after the entry assertions (lines 27-179):
`model.train()`, the batch loop, the post-loop logging (which reads
loop-local variables and so fails when no batch ran), the checkpoint
branches (both of which call `model.eval()`), and `return total_loss`.
Alongside the result, the ghost trace of modes at each forward pass. -/
noncomputable def trainBody {σ : Type} (M : Model σ) (epoch : ℤ)
    (batches : List (Mat × List ℤ)) (prop : List ℝ) (klw : ℝ)
    (maxEpochs : ℤ) (s0 : σ) :
    List Mode × Except TrainError (EpochResult σ) :=
  match runBatches M prop klw Mode.training s0 0 [] batches with
  | (trace, Except.error e) => (trace, Except.error e)
  | (trace, Except.ok (s, total)) =>
    if batches.isEmpty then (trace, Except.error TrainError.unboundLocal)
    else
      (trace, Except.ok
        { state := s
          mode := if (checkpointBranch epoch maxEpochs).isSome
                  then Mode.evaluation else Mode.training
          total := total })

/-- `train_GMVAE` (lines 24-179): the two entry assertions on `base_dir`,
then the body.  `m0` is the mode the model is in when the call starts;
it is irrelevant because `model.train()` runs before the loop. -/
noncomputable def trainGMVAE {σ : Type} (M : Model σ) (epoch : ℤ)
    (batches : List (Mat × List ℤ)) (prop : List ℝ) (klw : ℝ)
    (maxEpochs : ℤ) (baseDir : PyValue) (s0 : σ) (m0 : Mode) :
    List Mode × Except TrainError (EpochResult σ) :=
  if assertsPass baseDir then trainBody M epoch batches prop klw maxEpochs s0
  else ([], Except.error TrainError.assertionFailed)

/-- A minimal concrete model over a trivial parameter state: the forward
pass echoes the batch, so every shape assertion passes. -/
noncomputable def Mtest : Model Unit where
  forward := fun _ data _ => ⟨data, data, data, data, data⟩
  probExtraZero := fun _ => [1/2]
  overDisp := fun _ => [1]
  optStep := id

/-- A one-sample, one-feature batch. -/
noncomputable def batchFix : Mat × List ℤ := ([[0]], [0])

/-- A 32-sample batch with 99 features. -/
noncomputable def dataFix99 : Mat := List.replicate 32 (List.replicate 99 (0:ℝ))

/-- A 32-by-100 matrix, the reconstruction shape of `Mbad`. -/
noncomputable def dataFix100 : Mat := List.replicate 32 (List.replicate 100 (0:ℝ))

/-- A concrete model whose reconstruction always has shape (32, 100),
whatever the input shape. -/
noncomputable def Mbad : Model Unit where
  forward := fun _ _ _ => ⟨dataFix100, [], [], [], []⟩
  probExtraZero := fun _ => []
  overDisp := fun _ => []
  optStep := id

/-- Claim C1: for every batch, the composite training loss equals exactly
`recon_loss*5 + zinb_val + fraction_loss*10 + kl_weighted`, where
`fraction_loss` is the MSE between the batch-mean of pi (mean over the
sample axis) and the target proportion vector and `recon_loss` is the MSE
between the reconstruction and the input features; and for the literal
example recon=0.2, zinb=1.5, fraction=0.05, kl_weighted=0.3 the total
is 3.3. -/
theorem c1_composite_loss (data : Mat) (out : ModelOut)
    (piv rv prop : List ℝ) (klw : ℝ) :
    batchLoss data out piv rv prop klw =
      mseR (flattenM out.reconstructed) (flattenM data) * 5
        + zinbMat data out.reconstructed piv rv
        + mseR (colMean out.pis) prop * 10
        + klWeighted (klRaw out.mus out.logvars) klw
    ∧ combineLoss 0.2 1.5 0.05 0.3 = 3.3 := by
  refine ⟨rfl, ?_⟩
  norm_num [combineLoss]

/-- Claim C2: the raw KL term equals
`0.5 * sum(-1 - logvar + mu^2 + exp(logvar)) / 1e9`, the weighted term is
the product with the KL weight, it is hard-clamped to exactly `1` whenever
the product exceeds `1`, and at or below the crossing point the product
passes through unchanged. -/
theorem c2_kl_clamp (mus logvars : Mat) (kl w : ℝ) :
    klRaw mus logvars =
      0.5 * (List.zipWith (fun m l => -1 - l + m ^ 2 + Real.exp l)
        (flattenM mus) (flattenM logvars)).sum / 1e9
    ∧ klWeighted kl w = (if kl * w > 1 then 1 else kl * w)
    ∧ (kl * w > 1 → klWeighted kl w = 1)
    ∧ (kl * w ≤ 1 → klWeighted kl w = kl * w) := by
  refine ⟨rfl, rfl, fun h => if_pos h, fun h => if_neg (not_lt.mpr h)⟩

/-- Witness for C2: a product above the clamp is replaced by exactly 1,
and at the crossing point (product exactly 1) it passes unchanged. -/
theorem c2_kl_clamp_witness :
    ((2:ℝ) * 1 > 1 ∧ klWeighted 2 1 = 1)
    ∧ ((1:ℝ) * 1 ≤ 1 ∧ klWeighted 1 1 = 1 * 1) :=
  ⟨⟨by norm_num, (c2_kl_clamp [] [] 2 1).2.2.1 (by norm_num)⟩,
   ⟨by norm_num, (c2_kl_clamp [] [] 1 1).2.2.2 (by norm_num)⟩⟩

/-- Claim C5: the periodic checkpoint branch runs iff
`(epoch+1) % 10 == 0` and `epoch != max_epochs - 1`, the final-save
branch runs iff `epoch == max_epochs - 1`, the two are mutually
exclusive, and the three concrete scenarios behave as stated. -/
theorem c5_checkpoint_branches (e M : ℤ) :
    (checkpointBranch e M = some Branch.periodic ↔
      ((e + 1) % 10 = 0 ∧ e ≠ M - 1))
    ∧ (checkpointBranch e M = some Branch.final ↔ e = M - 1)
    ∧ ¬(checkpointBranch e M = some Branch.periodic
        ∧ checkpointBranch e M = some Branch.final)
    ∧ checkpointBranch 9 50 = some Branch.periodic
    ∧ checkpointBranch 49 50 = some Branch.final
    ∧ checkpointBranch 9 10 = some Branch.final := by
  refine ⟨?_, ?_, ?_, by decide, by decide, by decide⟩
  · unfold checkpointBranch periodicCond finalCond
    by_cases h1 : (e + 1) % 10 = 0 <;> by_cases h2 : e = M - 1 <;>
      simp [h1, h2]
  · unfold checkpointBranch periodicCond finalCond
    by_cases h1 : (e + 1) % 10 = 0 <;> by_cases h2 : e = M - 1 <;>
      simp [h1, h2]
  · rintro ⟨hp, hf⟩
    rw [hp] at hf
    simp at hf

lemma lgamma_one_eq : lgamma 1 = 0 := by
  rw [lgamma, Real.Gamma_one, Real.log_one]

lemma Gamma_three_halves : Real.Gamma (3/2) = Real.sqrt Real.pi / 2 := by
  have h : (3:ℝ)/2 = 1/2 + 1 := by norm_num
  rw [h, Real.Gamma_add_one (by norm_num), Real.Gamma_one_half_eq]
  ring

lemma lgamma_three_halves_ne : lgamma (3/2) ≠ 0 := by
  rw [lgamma, Gamma_three_halves]
  intro h
  have hpos := Real.sqrt_pos.mpr Real.pi_pos
  rcases Real.log_eq_zero.mp h with h0 | h1 | h2
  · linarith
  · have hs : Real.sqrt Real.pi = 2 := by linarith
    have hsq := Real.sq_sqrt Real.pi_pos.le
    rw [hs] at hsq
    have : Real.pi = 4 := by nlinarith
    linarith [Real.pi_lt_d2]
  · linarith

/-- Counterexample for C3: the claim has "each of these terms
epsilon-stabilized", but the code does not stabilize `lgamma(y+1)` and
stabilizes the last log as `log(1-(pi+eps))` rather than `log(1-pi+eps)`;
at y=0, pi=1/4, r=1, eps=1/2 the code's term differs from the
spec-worded, fully stabilized term. -/
theorem c3_counterexample :
    nb_case 0 (1/4) 1 (1/2) ≠ nb_case_fromSpec 0 (1/4) 1 (1/2) := by
  unfold nb_case nb_case_fromSpec
  intro h
  norm_num at h
  apply lgamma_three_halves_ne
  linarith [lgamma_one_eq, h]

/-- Claim C3 (amended): the negative-binomial term is computed
elementwise as
`lgamma(y+r+eps) - lgamma(r+eps) - lgamma(y+1) + r*log(pi+eps) + y*log(1-(pi+eps))`:
every term is epsilon-stabilized except `lgamma(y+1)`, whose argument
carries no eps, and the last log's stabilization enters as `1-(pi+eps)`. -/
theorem c3_nb_term (y p r eps : ℝ) :
    nb_case y p r eps =
      lgamma (y + r + eps) - lgamma (r + eps) - lgamma (y + 1)
        + r * Real.log (p + eps) + y * Real.log (1 - (p + eps)) := by
  unfold nb_case
  ring

lemma log_three_halves_ne : Real.log (3/2) ≠ 0 := by
  intro h
  rcases Real.log_eq_zero.mp h with h0 | h0 | h0 <;> norm_num at h0

lemma zero_case_at_zero : zero_case 0 (1/2) 1 (1/2) = 0 := by
  unfold zero_case
  rw [if_pos (by norm_num : (0:ℝ) < 1/2), Real.rpow_one]
  norm_num [Real.log_one, Real.exp_zero]

lemma zero_case_fromSpec_at_zero :
    zero_case_fromSpec 0 (1/2) 1 (1/2) = -Real.log (3/2) := by
  unfold zero_case_fromSpec
  rw [if_pos (by norm_num : (0:ℝ) < 1/2), Real.rpow_one]
  have hl : Real.log (1 - (1/2:ℝ)) = -Real.log 2 := by
    rw [show (1:ℝ) - 1/2 = 2⁻¹ by norm_num, Real.log_inv]
  rw [hl, show -(1:ℝ) * -Real.log 2 = Real.log 2 by ring,
    Real.exp_log (by norm_num : (0:ℝ) < 2)]
  norm_num

/-- Counterexample for C4: the claim's zero-case formula reads
`-log(zero_nb + (1-zero_nb)·exp(-r·log(1-pi)))`, but the code
epsilon-stabilizes that inner log as `log(1-pi+eps)`; at y=0, pi=1/2,
r=1, eps=1/2 the code's term is 0 while the spec-worded term is
`-log(3/2)`. -/
theorem c4_counterexample :
    zero_case 0 (1/2) 1 (1/2) ≠ zero_case_fromSpec 0 (1/2) 1 (1/2) := by
  rw [zero_case_at_zero, zero_case_fromSpec_at_zero]
  intro h
  exact log_three_halves_ne (by linarith)

/-- Claim C4 (amended): the zero-inflation term is nonzero only at
entries where y_true is numerically zero (`y < eps`), where it equals
`-log(zero_nb + (1-zero_nb)·exp(-r·log(1-pi+eps)))` with
`zero_nb = pi^r`; it is exactly zero at nonzero entries; and the
returned scalar is the negative mean over all elements of
(zero-case term + negative-binomial term), the NB term added
unconditionally at every entry. -/
theorem c4_zero_inflation (ys yp piv rv : List ℝ) (eps : ℝ) :
    zinb_loss ys yp piv rv eps =
      -(meanR (zipWith3R
          (fun y p r => zero_case y p r eps + nb_case y p r eps) ys piv rv))
    ∧ (∀ y p r : ℝ, ¬ y < eps → zero_case y p r eps = 0)
    ∧ (∀ y p r : ℝ, y < eps →
        zero_case y p r eps =
          -Real.log (p ^ r
            + (1 - p ^ r) * Real.exp (-r * Real.log (1 - p + eps)))) :=
  ⟨rfl, fun _ _ _ h => if_neg h, fun _ _ _ h => if_pos h⟩

/-- Witness for C4: at eps=1/2, the entry y=1 is not numerically zero and
its zero-case term is 0; the entry y=0 is numerically zero and its
zero-case term is the stated mixture log. -/
theorem c4_zero_inflation_witness :
    (¬ (1:ℝ) < 1/2 ∧ zero_case 1 (1/2) 1 (1/2) = 0)
    ∧ ((0:ℝ) < 1/2 ∧ zero_case 0 (1/2) 1 (1/2) =
        -Real.log ((1/2:ℝ) ^ ((1:ℝ))
          + (1 - (1/2:ℝ) ^ ((1:ℝ)))
            * Real.exp (-(1:ℝ) * Real.log (1 - 1/2 + 1/2)))) :=
  ⟨⟨by norm_num,
    (c4_zero_inflation [] [] [] [] (1/2)).2.1 1 (1/2) 1 (by norm_num)⟩,
   ⟨by norm_num,
    (c4_zero_inflation [] [] [] [] (1/2)).2.2 0 (1/2) 1 (by norm_num)⟩⟩

lemma zinb_terms_eq_map (eps : ℝ) (y : List ℝ) :
    ∀ (piv rv : List ℝ),
      zipWith3R (fun a p r => zinbTerm a p r eps) y piv rv =
        (y.zip (piv.zip rv)).map (fun x => zinbTerm x.1 x.2.1 x.2.2 eps) := by
  induction y with
  | nil => intro piv rv; cases piv <;> cases rv <;> simp [zipWith3R]
  | cons a y ih =>
    intro piv rv
    cases piv with
    | nil => simp [zipWith3R]
    | cons p piv =>
      cases rv with
      | nil => simp [zipWith3R]
      | cons r rv => simp [zipWith3R, ih]

/-- Claim C8: on an all-zero y_true tensor the value of `zinb_loss` does
not depend on `y_pred` (it is a function of pi, r and eps alone), and
`zinb_loss` is invariant under any permutation applied jointly to the
entries of its tensor arguments. -/
theorem c8_zinb_invariances (n : ℕ) (yp yp2 y y2 piv piv2 rv rv2 : List ℝ)
    (eps : ℝ) :
    zinb_loss (List.replicate n 0) yp piv rv eps
      = zinb_loss (List.replicate n 0) yp2 piv rv eps
    ∧ (List.Perm (y.zip (piv.zip rv)) (y2.zip (piv2.zip rv2)) →
        zinb_loss y yp piv rv eps = zinb_loss y2 yp2 piv2 rv2 eps) := by
  refine ⟨rfl, fun h => ?_⟩
  have hperm := h.map (fun x => zinbTerm x.1 x.2.1 x.2.2 eps)
  unfold zinb_loss meanR
  rw [zinb_terms_eq_map, zinb_terms_eq_map, hperm.sum_eq, hperm.length_eq]

/-- Witness for C8: swapping the two (y, pi, r) triples of a concrete
two-entry input leaves `zinb_loss` unchanged, with distinct `y_pred`
values on the two sides. -/
theorem c8_zinb_invariances_witness :
    List.Perm (([0, 1] : List ℝ).zip
        (([1/2, 1/3] : List ℝ).zip ([1, 2] : List ℝ)))
      (([1, 0] : List ℝ).zip (([1/3, 1/2] : List ℝ).zip ([2, 1] : List ℝ)))
    ∧ zinb_loss [0, 1] [5] [1/2, 1/3] [1, 2] (1/2)
        = zinb_loss [1, 0] [7] [1/3, 1/2] [2, 1] (1/2) := by
  have hp : List.Perm (([0, 1] : List ℝ).zip
        (([1/2, 1/3] : List ℝ).zip ([1, 2] : List ℝ)))
      (([1, 0] : List ℝ).zip
        (([1/3, 1/2] : List ℝ).zip ([2, 1] : List ℝ))) := by
    show List.Perm
      [((0:ℝ), ((1/2:ℝ), (1:ℝ))), (1, (1/3, 2))]
      [((1:ℝ), ((1/3:ℝ), (2:ℝ))), (0, (1/2, 1))]
    exact List.Perm.swap _ _ _
  exact ⟨hp,
    (c8_zinb_invariances 0 [5] [7] [0, 1] [1, 0] [1/2, 1/3] [1/3, 1/2]
      [1, 2] [2, 1] (1/2)).2 hp⟩

lemma runBatches_ok {σ : Type} (M : Model σ) (prop : List ℝ) (klw : ℝ)
    (mode : Mode) :
    ∀ (bs : List (Mat × List ℤ)) (s : σ) (t : ℝ) (tr : List Mode),
      wellShaped M s bs = true →
      runBatches M prop klw mode s t tr bs =
        (tr ++ List.replicate bs.length mode,
         Except.ok (finalState M s bs,
           t + (perBatchLosses M prop klw s bs).sum)) := by
  intro bs
  induction bs with
  | nil =>
    intro s t tr _
    simp [runBatches, finalState, perBatchLosses]
  | cons b rest ih =>
    obtain ⟨data, labels⟩ := b
    intro s t tr hw
    simp only [wellShaped, Bool.and_eq_true, decide_eq_true_eq] at hw
    obtain ⟨h1, h2⟩ := hw
    simp only [runBatches]
    rw [if_pos h1, ih _ _ _ h2]
    simp [finalState, perBatchLosses, List.replicate_succ]
    ring

lemma runBatches_trace_mem {σ : Type} (M : Model σ) (prop : List ℝ)
    (klw : ℝ) (mode : Mode) :
    ∀ (bs : List (Mat × List ℤ)) (s : σ) (t : ℝ) (tr : List Mode) (m : Mode),
      m ∈ (runBatches M prop klw mode s t tr bs).1 → m ∈ tr ∨ m = mode := by
  intro bs
  induction bs with
  | nil =>
    intro s t tr m h
    exact Or.inl (by simpa [runBatches] using h)
  | cons b rest ih =>
    obtain ⟨data, labels⟩ := b
    intro s t tr m h
    simp only [runBatches] at h
    by_cases hc : shape (M.forward s data labels).reconstructed = shape data
    · rw [if_pos hc] at h
      rcases ih _ _ _ _ h with h2 | h2
      · rcases List.mem_append.mp h2 with h3 | h3
        · exact Or.inl h3
        · exact Or.inr (by simpa using h3)
      · exact Or.inr h2
    · rw [if_neg hc] at h
      rcases List.mem_append.mp h with h3 | h3
      · exact Or.inl h3
      · exact Or.inr (by simpa using h3)

/-- Claim C6: when the reconstruction shape differs from the input
features' shape, the batch loop stops with the shape-mismatch error right
after the forward pass — the error result carries no loss value — and
aborts the rest of the epoch; when the shapes are equal, no such error is
raised for that batch and the loop continues into the remaining batches
with the composite loss accumulated. -/
theorem c6_shape_assert {σ : Type} (M : Model σ) (s : σ) (prop : List ℝ)
    (klw : ℝ) (mode : Mode) (t : ℝ) (tr : List Mode) (data : Mat)
    (labels : List ℤ) (rest : List (Mat × List ℤ)) :
    (shape (M.forward s data labels).reconstructed ≠ shape data →
      trainStep M s prop klw data labels =
        Except.error TrainError.shapeMismatch)
    ∧ (shape (M.forward s data labels).reconstructed = shape data →
      trainStep M s prop klw data labels =
        Except.ok (M.optStep s,
          batchLoss data (M.forward s data labels) (M.probExtraZero s)
            (M.overDisp s) prop klw))
    ∧ (shape (M.forward s data labels).reconstructed ≠ shape data →
      runBatches M prop klw mode s t tr ((data, labels) :: rest) =
        (tr ++ [mode], Except.error TrainError.shapeMismatch))
    ∧ (shape (M.forward s data labels).reconstructed = shape data →
      runBatches M prop klw mode s t tr ((data, labels) :: rest) =
        runBatches M prop klw mode (M.optStep s)
          (t + batchLoss data (M.forward s data labels) (M.probExtraZero s)
            (M.overDisp s) prop klw)
          (tr ++ [mode]) rest) := by
  refine ⟨?_, ?_, ?_, ?_⟩
  · intro h
    simp only [trainStep]
    rw [if_neg h]
  · intro h
    simp only [trainStep]
    rw [if_pos h]
  · intro h
    simp only [runBatches]
    rw [if_neg h]
  · intro h
    simp only [runBatches]
    rw [if_pos h]

/-- Witness for C6: a model whose reconstruction has shape (32, 100)
errors on a (32, 99) batch and passes on a (32, 100) batch. -/
theorem c6_shape_assert_witness :
    (shape ((Mbad.forward () dataFix99 []).reconstructed) ≠ shape dataFix99
      ∧ runBatches Mbad [] 1 Mode.training () 0 [] [(dataFix99, [])] =
          ([Mode.training], Except.error TrainError.shapeMismatch))
    ∧ (shape ((Mbad.forward () dataFix100 []).reconstructed) = shape dataFix100
      ∧ trainStep Mbad () [] 1 dataFix100 [] =
          Except.ok (Mbad.optStep (),
            batchLoss dataFix100 (Mbad.forward () dataFix100 [])
              (Mbad.probExtraZero ()) (Mbad.overDisp ()) [] 1)) := by
  have hne : shape ((Mbad.forward () dataFix99 []).reconstructed)
      ≠ shape dataFix99 := by
    simp only [Mbad, shape, dataFix99, dataFix100, List.map_replicate,
      List.length_replicate]
    decide
  have heq : shape ((Mbad.forward () dataFix100 []).reconstructed)
      = shape dataFix100 := rfl
  refine ⟨⟨hne, ?_⟩, heq,
    (c6_shape_assert Mbad () [] 1 Mode.training 0 [] dataFix100 [] []).2.1 heq⟩
  have := (c6_shape_assert Mbad () [] 1 Mode.training 0 [] dataFix99 []
    []).2.2.1 hne
  simpa using this

/-- Counterexample for C7: on the empty batch sequence `train_GMVAE`
does not return the (empty) sum: the post-loop logging reads loop-local
variables that were never bound, so the call fails instead of
returning. -/
theorem c7_counterexample :
    (trainGMVAE Mtest 0 [] [1/2] 1 10 PyValue.str () Mode.training).2 =
      Except.error TrainError.unboundLocal := rfl

/-- Claim C7 (amended): for every nonempty finite sequence of batches,
each of which passes the reconstruction-shape assertion, `train_GMVAE`
returns the sum over all batches of the per-batch scalar composite loss
values, accumulated from 0 and not divided by the number of batches. -/
theorem c7_total_is_sum {σ : Type} (M : Model σ) (epoch : ℤ)
    (batches : List (Mat × List ℤ)) (prop : List ℝ) (klw : ℝ)
    (maxEpochs : ℤ) (baseDir : PyValue) (s0 : σ) (m0 : Mode)
    (hne : batches ≠ [])
    (hw : wellShaped M s0 batches = true)
    (hb : isStr baseDir = true ∨ isPath baseDir = true) :
    (trainGMVAE M epoch batches prop klw maxEpochs baseDir s0 m0).2 =
      Except.ok
        { state := finalState M s0 batches
          mode := if (checkpointBranch epoch maxEpochs).isSome
                  then Mode.evaluation else Mode.training
          total := (perBatchLosses M prop klw s0 batches).sum } := by
  have hpass : assertsPass baseDir = true := by
    rcases hb with h | h <;> cases baseDir <;>
      simp_all [assertsPass, notNone, isStr, isPath]
  unfold trainGMVAE
  rw [if_pos hpass]
  unfold trainBody
  rw [runBatches_ok M prop klw Mode.training batches s0 0 [] hw]
  obtain ⟨b, bs2, rfl⟩ := List.exists_cons_of_ne_nil hne
  simp

/-- Witness for C7: a one-batch call through an echoing model satisfies
the hypotheses and returns the one-element loss sum. -/
theorem c7_total_is_sum_witness :
    ([batchFix] ≠ ([] : List (Mat × List ℤ)))
    ∧ wellShaped Mtest () [batchFix] = true
    ∧ (isStr PyValue.str = true ∨ isPath PyValue.str = true)
    ∧ (trainGMVAE Mtest 0 [batchFix] [1/2] 1 10 PyValue.str ()
        Mode.evaluation).2 =
      Except.ok
        { state := finalState Mtest () [batchFix]
          mode := if (checkpointBranch 0 10).isSome
                  then Mode.evaluation else Mode.training
          total := (perBatchLosses Mtest [1/2] 1 () [batchFix]).sum } :=
  ⟨by simp, by rfl, Or.inl rfl,
    c7_total_is_sum Mtest 0 [batchFix] [1/2] 1 10 PyValue.str ()
      Mode.evaluation (by simp) (by rfl) (Or.inl rfl)⟩

/-- Claim C9: `model.train()` runs before the batch loop of every call,
so whatever mode the model was left in by a previous call (in particular
evaluation mode set by a checkpoint save), the model is in training mode
at every forward pass of every call. -/
theorem c9_training_mode {σ : Type} (M : Model σ) (epoch : ℤ)
    (batches : List (Mat × List ℤ)) (prop : List ℝ) (klw : ℝ)
    (maxEpochs : ℤ) (baseDir : PyValue) (s0 : σ) (m0 : Mode) (m : Mode)
    (hm : m ∈ (trainGMVAE M epoch batches prop klw maxEpochs baseDir
      s0 m0).1) :
    m = Mode.training := by
  unfold trainGMVAE at hm
  by_cases hb : assertsPass baseDir = true
  · rw [if_pos hb] at hm
    unfold trainBody at hm
    rcases hr : runBatches M prop klw Mode.training s0 0 [] batches
      with ⟨trace, res⟩
    rw [hr] at hm
    have htr : m ∈ trace → m = Mode.training := by
      intro h
      rcases runBatches_trace_mem M prop klw Mode.training batches s0 0 [] m
        (by rw [hr]; exact h) with h2 | h2
      · simp at h2
      · exact h2
    cases res with
    | error e => exact htr hm
    | ok p =>
      obtain ⟨s, total⟩ := p
      by_cases he : batches.isEmpty <;> simp [he] at hm <;> exact htr hm
  · rw [if_neg hb] at hm
    simp at hm

/-- Witness for C9: a call entered in evaluation mode performs its single
forward pass in training mode. -/
theorem c9_training_mode_witness :
    Mode.training ∈ (trainGMVAE Mtest 0 [batchFix] [1/2] 1 10 PyValue.str ()
      Mode.evaluation).1
    ∧ Mode.training = Mode.training := by
  have hmem : Mode.training ∈ (trainGMVAE Mtest 0 [batchFix] [1/2] 1 10
      PyValue.str () Mode.evaluation).1 := by
    show Mode.training ∈ [Mode.training]
    simp
  exact ⟨hmem, c9_training_mode Mtest 0 [batchFix] [1/2] 1 10 PyValue.str ()
    Mode.evaluation Mode.training hmem⟩

/-- Claim C10: `train_GMVAE` raises an assertion error before processing
any batch whenever `base_dir` is `None` or is neither a `str` nor a
`Path`; when `base_dir` is a `str` or a `Path`, both entry assertions
pass and execution proceeds to the loop body. -/
theorem c10_base_dir_asserts {σ : Type} (M : Model σ) (epoch : ℤ)
    (batches : List (Mat × List ℤ)) (prop : List ℝ) (klw : ℝ)
    (maxEpochs : ℤ) (b : PyValue) (s0 : σ) (m0 : Mode) :
    ((b = PyValue.none ∨ (isStr b = false ∧ isPath b = false)) →
      trainGMVAE M epoch batches prop klw maxEpochs b s0 m0 =
        ([], Except.error TrainError.assertionFailed))
    ∧ ((isStr b = true ∨ isPath b = true) →
      assertsPass b = true ∧
      trainGMVAE M epoch batches prop klw maxEpochs b s0 m0 =
        trainBody M epoch batches prop klw maxEpochs s0) := by
  constructor
  · intro h
    have hf : assertsPass b = false := by
      rcases h with rfl | ⟨h1, h2⟩
      · rfl
      · cases b <;> simp_all [assertsPass, notNone, isStr, isPath]
    simp [trainGMVAE, hf]
  · intro h
    have hp : assertsPass b = true := by
      rcases h with h | h <;> cases b <;>
        simp_all [assertsPass, notNone, isStr, isPath]
    exact ⟨hp, by simp [trainGMVAE, hp]⟩

/-- Witness for C10: `base_dir = None` trips the entry assertions;
a `str` passes them and the call runs the body. -/
theorem c10_base_dir_asserts_witness :
    ((PyValue.none = PyValue.none
        ∨ (isStr PyValue.none = false ∧ isPath PyValue.none = false))
      ∧ trainGMVAE Mtest 0 [] [] 1 10 PyValue.none () Mode.training =
          ([], Except.error TrainError.assertionFailed))
    ∧ ((isStr PyValue.str = true ∨ isPath PyValue.str = true)
      ∧ assertsPass PyValue.str = true
      ∧ trainGMVAE Mtest 0 [] [] 1 10 PyValue.str () Mode.training =
          trainBody Mtest 0 [] [] 1 10 ()) := by
  refine ⟨⟨Or.inl rfl, ?_⟩, ?_⟩
  · exact (c10_base_dir_asserts Mtest 0 [] [] 1 10 PyValue.none ()
      Mode.training).1 (Or.inl rfl)
  · have h := (c10_base_dir_asserts Mtest 0 [] [] 1 10 PyValue.str ()
      Mode.training).2 (Or.inl rfl)
    exact ⟨Or.inl rfl, h.1, h.2⟩
